import Mathlib

/-!
# BiliOCR — verification of the streaming reconcilers and translation dispatcher

Shallow embedding of the core of `bilibili_ocr_translate_full`:

* `streaming_reconciler.py`: `StreamingReconciler` (MT variant), `LLMReconciler`,
  `AudioReconciler`, and the module-level `_count_words`.
* `app.py`: `_is_llm_output_sane`, `translate`, and the bounded
  recent-sources / recent-translations ring-buffer updates.

Strings are modelled as `List Char` (Python `str` is a sequence of Unicode
code points, as is Lean's `List Char`).  Wall-clock times and float-valued
thresholds are modelled as `ℚ`; every float comparison appearing in the code
compares a ratio of small integers against a decimal literal, and at the
string lengths reachable by the program these comparisons agree exactly with
their rational counterparts, which is how they are rendered here.
`difflib.SequenceMatcher` (used with `autojunk=False` and no junk predicate)
is embedded by its documented semantics: `find_longest_match` returns the
longest matching block, ties broken by the earliest start in `a`, then the
earliest start in `b`; `ratio` is `2*M/T` where `M` is the total size of the
matching blocks and `T` the sum of the two lengths.
-/

namespace BiliOCR

/-- Python `str.strip()` / `\s` whitespace predicate (the whitespace code
points relevant to this code base: ASCII whitespace and the common Unicode
space characters recognised by CPython). -/
def pyIsSpace (c : Char) : Bool :=
  [0x9, 0xa, 0xb, 0xc, 0xd, 0x1c, 0x1d, 0x1e, 0x1f, 0x20, 0x85, 0xa0,
   0x1680, 0x2000, 0x2001, 0x2002, 0x2003, 0x2004, 0x2005, 0x2006, 0x2007,
   0x2008, 0x2009, 0x200a, 0x2028, 0x2029, 0x202f, 0x205f,
   0x3000].contains c.toNat

/-- Python `str.strip()`: drop leading and trailing whitespace. -/
def pyStrip (l : List Char) : List Char :=
  ((l.dropWhile pyIsSpace).reverse.dropWhile pyIsSpace).reverse

/-- One character of the regex class
`[一-鿿぀-ヿ가-힯]` used throughout `app.py` and
`streaming_reconciler.py` for CJK detection. -/
def isCJKChar (c : Char) : Bool :=
  (0x4e00 ≤ c.toNat && c.toNat ≤ 0x9fff) ||
  (0x3040 ≤ c.toNat && c.toNat ≤ 0x30ff) ||
  (0xac00 ≤ c.toNat && c.toNat ≤ 0xd7af)

/-- ASCII letter, the regex class `[a-zA-Z]`. -/
def isLatinLetter (c : Char) : Bool :=
  ('a' ≤ c && c ≤ 'z') || ('A' ≤ c && c ≤ 'Z')

/-- Helper for counting maximal runs of characters satisfying `p`
(`re.findall(r'[c]+', s)` returns one match per maximal run).  The Bool
argument records whether the previous character was inside a run. -/
def runCountAux (p : Char → Bool) : List Char → Bool → Nat
  | [], _ => 0
  | c :: t, inRun =>
    if p c then (if inRun then 0 else 1) + runCountAux p t true
    else runCountAux p t false

/-- Number of maximal runs of characters satisfying `p`. -/
def runCount (p : Char → Bool) (l : List Char) : Nat :=
  runCountAux p l false

/-- `streaming_reconciler._count_words`: CJK characters plus Latin tokens
(`len(re.findall(CJK, text)) + len(re.findall(r'[a-zA-Z]+', text))`),
0 for empty/whitespace-only input. -/
def countWords (l : List Char) : Nat :=
  if pyStrip l = [] then 0
  else l.countP (fun c => isCJKChar c) + runCount isLatinLetter l

/-- `re.findall(r'\S+', s)`: the maximal whitespace-free runs of `s`, in
order.  The accumulator holds the current (reversed) partial token. -/
def splitTokensAux : List Char → List Char → List (List Char)
  | [], acc => if acc = [] then [] else [acc.reverse]
  | c :: t, acc =>
    if pyIsSpace c then
      if acc = [] then splitTokensAux t []
      else acc.reverse :: splitTokensAux t []
    else splitTokensAux t (c :: acc)

/-- The whitespace-delimited tokens of `s`. -/
def splitTokens (l : List Char) : List (List Char) :=
  splitTokensAux l []

/-- Maximal runs of CJK characters of `s`, in order (same accumulator scheme
as `splitTokens`, with non-CJK characters as separators). -/
def cjkRunsAux : List Char → List Char → List (List Char)
  | [], acc => if acc = [] then [] else [acc.reverse]
  | c :: t, acc =>
    if isCJKChar c then cjkRunsAux t (c :: acc)
    else if acc = [] then cjkRunsAux t []
    else acc.reverse :: cjkRunsAux t []

/-- The maximal CJK runs of `s`. -/
def cjkRuns (l : List Char) : List (List Char) :=
  cjkRunsAux l []

/-- Scanning semantics of `re.findall(r'[CJK]{2,8}', s)` restricted to one
maximal CJK run: the regex engine greedily takes 8 characters at a time and
abandons a trailing single character (a 1-character remainder cannot match
`{2,8}`). -/
def chunkRun (run : List Char) : List (List Char) :=
  if h2 : 2 ≤ run.length then
    have : (run.drop 8).length < run.length := by
      simp only [List.length_drop]
      omega
    run.take 8 :: chunkRun (run.drop 8)
  else []
termination_by run.length

/-- All matches of `re.findall(r'[CJK]{2,8}', s)`. -/
def cjkChunks (l : List Char) : List (List Char) :=
  (cjkRuns l).flatMap chunkRun

/-- `Counter(l).most_common(1)[0][1]`: the largest multiplicity of an element
of `l` (0 for the empty list). -/
def maxMult (l : List (List Char)) : Nat :=
  (l.map (fun t => l.count t)).foldr max 0

/-- `app._is_llm_output_sane(result, source_text)`: reject empty output,
absurdly long output (`len > max(2000, 8*src_len)`), a whitespace token
repeated ≥ 15 times or ≥ 8 times making up ≥ 30 % of ≥ 10 tokens, and a
short CJK chunk repeated ≥ 15 times among ≥ 10 extracted chunks.
`cnt >= len(tokens) * 0.3` is rendered exactly as `3 * len ≤ 10 * cnt`. -/
def isLLMOutputSane (result source : List Char) : Bool :=
  let s := pyStrip result
  if s = [] then false
  else
    let srcLen := (pyStrip source).length
    if 0 < srcLen ∧ max 2000 (srcLen * 8) < s.length then false
    else
      let toks := splitTokens s
      if 10 ≤ toks.length ∧
          (15 ≤ maxMult toks ∨
            (8 ≤ maxMult toks ∧ 3 * toks.length ≤ 10 * maxMult toks)) then false
      else
        let runs := cjkChunks s
        if 10 ≤ runs.length ∧ 15 ≤ maxMult runs then false
        else true

/-- Length of the common prefix of two character lists. -/
def commonPrefixLen : List Char → List Char → Nat
  | a :: as, b :: bs => if a = b then commonPrefixLen as bs + 1 else 0
  | _, _ => 0

/-- Length of the matching run of `a[i:ahi]` against `b[j:bhi]` starting at
positions `i` and `j`. -/
def runLen (a b : List Char) (ahi bhi i j : Nat) : Nat :=
  commonPrefixLen ((a.drop i).take (ahi - i)) ((b.drop j).take (bhi - j))

/-- All candidate start positions `(i, j)` with `alo ≤ i < ahi`,
`blo ≤ j < bhi`, in row-major order. -/
def matchCands (alo ahi blo bhi : Nat) : List (Nat × Nat) :=
  (List.range' alo (ahi - alo)).flatMap
    (fun i => (List.range' blo (bhi - blo)).map (fun j => (i, j)))

/-- `SequenceMatcher.find_longest_match(alo, ahi, blo, bhi)` with
`autojunk=False` and no junk predicate: the longest matching block
`(i, j, size)`, ties broken by the smallest `i`, then the smallest `j`
(documented behaviour; realised here as a first-strict-improvement scan in
row-major order).  Returns `(alo, blo, 0)` when nothing matches. -/
def flm (a b : List Char) (alo ahi blo bhi : Nat) : Nat × Nat × Nat :=
  (matchCands alo ahi blo bhi).foldl
    (fun best c =>
      let k := runLen a b ahi bhi c.1 c.2
      if best.2.2 < k then (c.1, c.2, k) else best)
    (alo, blo, 0)

/-- Total size of `SequenceMatcher.get_matching_blocks()` on the window
`a[alo:ahi]` / `b[blo:bhi]`: the longest match plus, recursively, the
matching blocks to its left and to its right.  The fuel argument bounds the
recursion depth; `(ahi - alo) + (bhi - blo) + 1` always suffices, because
each recursive call strictly shrinks the window. -/
def mblocksSumF (a b : List Char) : Nat → Nat → Nat → Nat → Nat → Nat
  | 0, _, _, _, _ => 0
  | fuel + 1, alo, ahi, blo, bhi =>
    let m := flm a b alo ahi blo bhi
    if m.2.2 = 0 then 0
    else
      m.2.2 + mblocksSumF a b fuel alo m.1 blo m.2.1 +
        mblocksSumF a b fuel (m.1 + m.2.2) ahi (m.2.1 + m.2.2) bhi

/-- Total matched size `M` of `SequenceMatcher(None, a, b, autojunk=False)`,
so that `ratio() = 2*M/(|a|+|b|)`. -/
def mblocksSum (a b : List Char) : Nat :=
  mblocksSumF a b (a.length + b.length + 1) 0 a.length 0 b.length

/-- The guard `0.6 <= len(new) / max(1, len(old)) <= 1.5` of both merge
functions, with the float division and literals rendered over `ℚ`. -/
def lenRatioOk (old new : List Char) : Bool :=
  let r : ℚ := (new.length : ℚ) / ((max 1 old.length : Nat) : ℚ)
  decide ((3 / 5 : ℚ) ≤ r) && decide (r ≤ (3 / 2 : ℚ))

/-- The guard `matcher.ratio() >= 0.5` of both merge functions:
`2*M/(|old|+|new|) ≥ 1/2` iff `|old| + |new| ≤ 4*M`. -/
def simRatioGe (old new : List Char) : Bool :=
  decide (old.length + new.length ≤ 4 * mblocksSum old new)

/-- The boundary-overlap scan of both merge functions:
`for i in range(maxCheck, 1, -1): if old[-i:] == new[:i]: return old + new[i:]`.
The argument is the current `i`; the scan stops below `i = 2`. -/
def overlapSearch (old new : List Char) : Nat → Option (List Char)
  | 0 => none
  | 1 => none
  | i + 2 =>
    if old.drop (old.length - (i + 2)) = new.take (i + 2)
    then some (old ++ new.drop (i + 2))
    else overlapSearch old new (i + 1)

/-- Python `old in new` substring test. -/
def containsSub (old new : List Char) : Bool :=
  decide (old <:+: new)

/-- `StreamingReconciler._merge_with_overlap(old, new)`.  The float guards
`len(new) > len(old) * 0.7` and `len(old) > len(new) * 1.5` are rendered
exactly as `7*|old| < 10*|new|` and `3*|new| < 2*|old|`. -/
def mergeWithOverlap (old new : List Char) : List Char :=
  if old = [] then new
  else if lenRatioOk old new && simRatioGe old new then new
  else if old.isPrefixOf new then new
  else if containsSub old new then new
  else
    match overlapSearch old new (min (min old.length new.length) 20) with
    | some m => m
    | none =>
      let m := flm old new 0 old.length 0 new.length
      if 2 ≤ m.2.2 then
        if m.1 + m.2.2 = old.length then old ++ new.drop (m.2.1 + m.2.2)
        else if m.1 = 0 ∧ m.2.1 = 0 then new
        else old.take m.1 ++ new
      else if 7 * old.length < 10 * new.length then new
      else if 3 * new.length < 2 * old.length then old
      else new

/-- `LLMReconciler._merge` with buffer `old` and frame `new`: identical to
`_merge_with_overlap` up to the boundary-overlap scan (depth 25 instead of
20), then only the end-of-`old` continuation case, the `0.7` length test,
and the last resort `old + " " + new`. -/
def llmMerge (old new : List Char) : List Char :=
  if old = [] then new
  else if lenRatioOk old new && simRatioGe old new then new
  else if old.isPrefixOf new then new
  else if containsSub old new then new
  else
    match overlapSearch old new (min (min old.length new.length) 25) with
    | some m => m
    | none =>
      let m := flm old new 0 old.length 0 new.length
      if 2 ≤ m.2.2 ∧ m.1 + m.2.2 = old.length then old ++ new.drop (m.2.1 + m.2.2)
      else if 7 * old.length < 10 * new.length then new
      else old ++ ' ' :: new



/-! ## `StreamingReconciler` (MT variant) -/

/-- Truthiness of an optional float-valued timestamp (`if self.x:` in Python:
`None` and `0.0` are falsy). -/
def qTruthy : Option ℚ → Bool
  | none => false
  | some t => decide (t ≠ 0)

/-- The mutable state of `StreamingReconciler` (the `debug` flag and the
`translated_stable` cache are carried but never consulted by `ingest`). -/
structure MTState where
  stabilityThreshold : ℚ
  stableBuffer : List (List Char)
  unstableBuffer : List Char
  lastUnstable : List Char
  lastChangeTime : ℚ
  stabilityStartTime : Option ℚ
  unstableBufferStartTime : Option ℚ
  translatedStable : List (List Char)
deriving DecidableEq

/-- `StreamingReconciler.__init__(stability_threshold)` at wall-clock time
`t0`. -/
def mtInit (threshold t0 : ℚ) : MTState :=
  { stabilityThreshold := threshold, stableBuffer := [], unstableBuffer := [],
    lastUnstable := [], lastChangeTime := t0, stabilityStartTime := none,
    unstableBufferStartTime := none, translatedStable := [] }

/-- `StreamingReconciler._commit_unstable`: move the unstable buffer into the
stable buffer (bounded to 5 by one `pop(0)`), clear the timers. -/
def mtCommit (s : MTState) : MTState :=
  if s.unstableBuffer ≠ [] then
    let sb := s.stableBuffer ++ [s.unstableBuffer]
    { s with stableBuffer := if 5 < sb.length then sb.drop 1 else sb,
             unstableBuffer := [],
             stabilityStartTime := none,
             unstableBufferStartTime := none }
  else s

/-- Early-commit block of `StreamingReconciler.ingest` (lines 121–132): if
the current frame equals `last_unstable`, the stability clock is running
(truthy), and the buffer has been stable ≥ 0.2 s with length ≥ 6 and stable
time ≥ the threshold, commit. -/
def mtEarly (s : MTState) (now : ℚ) (new : List Char) :
    (Bool × Option (List Char) × Bool) × MTState :=
  if s.unstableBuffer ≠ [] ∧ new = s.lastUnstable then
    if qTruthy s.stabilityStartTime then
      let es := now - s.stabilityStartTime.getD 0
      if ((1 / 5 : ℚ) ≤ es ∧ 6 ≤ s.unstableBuffer.length) ∧
          s.stabilityThreshold ≤ es then
        ((true, some s.unstableBuffer, true), mtCommit s)
      else ((false, none, false), s)
    else ((false, none, false), s)
  else ((false, none, false), s)

/-- Tail of `StreamingReconciler.ingest` after the merge/stability phase
(lines 108–139): set `last_unstable`, then the timeout commit
(`time_in_buffer ≥ 2 * stability_threshold`, with the Python truthiness test
on `unstable_buffer_start_time`), then the early-commit block. -/
def mtAfter (s : MTState) (now : ℚ) (new : List Char) :
    (Bool × Option (List Char) × Bool) × MTState :=
  let s₂ := { s with lastUnstable := new }
  if s₂.unstableBuffer ≠ [] ∧ qTruthy s₂.unstableBufferStartTime then
    if s₂.stabilityThreshold * 2 ≤ now - s₂.unstableBufferStartTime.getD 0 then
      ((true, some s₂.unstableBuffer, true), mtCommit s₂)
    else mtEarly s₂ now new
  else mtEarly s₂ now new

/-- `StreamingReconciler.ingest(new_text)` at wall-clock time `now`.
Returns `((should_translate, text_to_translate, is_final), new_state)`. -/
def mtIngest (s : MTState) (now : ℚ) (newText : List Char) :
    (Bool × Option (List Char) × Bool) × MTState :=
  if pyStrip newText = [] then ((false, none, false), s)
  else
    let new := pyStrip newText
    if new = s.lastUnstable then
      let sst := s.stabilityStartTime.getD now
      let s₁ := { s with stabilityStartTime := some sst }
      if s.stabilityThreshold ≤ now - sst then
        let s₂ := if s₁.unstableBuffer ≠ new
                  then { s₁ with unstableBuffer := new } else s₁
        ((true, some s₂.unstableBuffer, true), mtCommit s₂)
      else mtAfter s₁ now new
    else
      let wasEmpty := s.unstableBuffer = []
      let merged := mergeWithOverlap s.unstableBuffer new
      let s₁ := { s with unstableBuffer := merged,
                         lastChangeTime := now,
                         stabilityStartTime := none,
                         unstableBufferStartTime :=
                           if wasEmpty ∧ merged ≠ [] then some now
                           else s.unstableBufferStartTime }
      mtAfter s₁ now new

/-! ## `AudioReconciler` -/

/-- `AudioReconciler.SENTENCE_ENDINGS = frozenset('.!?。！？')`. -/
def sentenceEndings : List Char := ['.', '!', '?', '。', '！', '？']

/-- `AudioReconciler._is_sentence_complete(text)`. -/
def isSentenceComplete (t : List Char) : Bool :=
  match t.getLast? with
  | none => false
  | some c => sentenceEndings.contains c

/-- The mutable state of `AudioReconciler`. -/
structure AudioState where
  periodSec : ℚ
  numChecks : Nat
  minWords : Nat
  buffer : List Char
  periodStart : Option ℚ
  checkCount : Nat
deriving DecidableEq

/-- `AudioReconciler.__init__(period_sec, num_checks, min_words)`. -/
def audioInit (period : ℚ) (checks minWords : Nat) : AudioState :=
  { periodSec := period, numChecks := checks, minWords := minWords,
    buffer := [], periodStart := none, checkCount := 0 }

/-- `AudioReconciler._reset`. -/
def audioReset (s : AudioState) : AudioState :=
  { s with buffer := [], periodStart := none, checkCount := 0 }

/-- `AudioReconciler.ingest(transcribed_text)` at wall-clock time `now`:
empty input is ignored; the transcript replaces the buffer and bumps the
check counter; below `min_words` nothing is sent; a sentence-terminal
transcript is sent immediately; otherwise the period/checks budget decides.
(`period_start` uses an `is None` test in the source, hence `getD`.) -/
def audioIngest (s : AudioState) (now : ℚ) (t : List Char) :
    (Bool × Option (List Char) × Bool) × AudioState :=
  if pyStrip t = [] then ((false, none, true), s)
  else
    let text := pyStrip t
    let wc := countWords text
    let ps := s.periodStart.getD now
    let s₁ := { s with periodStart := some ps, buffer := text,
                       checkCount := s.checkCount + 1 }
    if wc < s.minWords then ((false, none, true), s₁)
    else if isSentenceComplete text then
      ((true, some s₁.buffer, true), audioReset s₁)
    else if s.periodSec ≤ now - ps ∨ s.numChecks ≤ s₁.checkCount then
      ((true, some s₁.buffer, true), audioReset s₁)
    else ((false, none, true), s₁)


/-! ## `app.translate` — the translation dispatcher -/

/-- The translation cache (`self._translation_cache`, a dict keyed by the
source string). -/
def cacheLookup (c : List (List Char × List Char)) (s : List Char) :
    Option (List Char) :=
  match c with
  | [] => none
  | (k, v) :: t => if k = s then some v else cacheLookup t s

/-- `self._translation_cache[text] = result`. -/
def cacheInsert (c : List (List Char × List Char)) (s v : List Char) :
    List (List Char × List Char) :=
  (s, v) :: c

/-- Truthiness of a provider's return value (`if result:`); `none` stands
for a raised exception or a falsy return, which the provider loops treat
alike. -/
def provOk : Option (List Char) → Bool
  | none => false
  | some r => !r.isEmpty

/-- The external world of `translate`: the LLM call (which can raise —
`Except.error` — or return `None` or a string), the mixed-output repair
`_fix_mixed_llm_output` (abstract here), and the individual MT provider
wrappers `_translate_*`. -/
structure TransEnv where
  llm : List Char → Except Unit (Option (List Char))
  fixMixed : List Char → List Char
  deepl : List Char → Option (List Char)
  google : List Char → Option (List Char)
  baidu : List Char → Option (List Char)
  youdao : List Char → Option (List Char)
  yandex : List Char → Option (List Char)
  libre : List Char → Option (List Char)
  caiyun : List Char → Option (List Char)
  niutrans : List Char → Option (List Char)

/-- The dispatcher state touched by `translate`. -/
structure TransState where
  cache : List (List Char × List Char)
  useLargeModel : Bool
  usingMtFallback : Bool
  mtFallbackMessageShown : Bool
  translationFailWarned : Bool

/-- The MT fallback chain of large-model mode
(`DeepL → Google → Yandex → LibreTranslate → Caiyun → Niutrans`). -/
def chain6 (env : TransEnv) : List (List Char → Option (List Char)) :=
  [env.deepl, env.google, env.yandex, env.libre, env.caiyun, env.niutrans]

/-- The MT chain of small-model mode (`DeepL → Google → Baidu → Youdao →
Yandex → LibreTranslate → Caiyun → Niutrans`). -/
def chain8 (env : TransEnv) : List (List Char → Option (List Char)) :=
  [env.deepl, env.google, env.baidu, env.youdao, env.yandex, env.libre,
   env.caiyun, env.niutrans]

/-- One `for name, fn in zip(names, fns): try: result = fn(text); if result:
return result; except: continue` loop.  Returns the first truthy result and
the number of providers invoked. -/
def runChain : List (List Char → Option (List Char)) → List Char →
    Option (List Char) × Nat
  | [], _ => (none, 0)
  | p :: ps, s =>
    let r := p s
    if provOk r then (some (r.getD []), 1)
    else
      let t := runChain ps s
      (t.1, t.2 + 1)

/-- Outcome of the LLM attempt inside `translate`'s `try` block:
either an accepted (sane, repaired) translation, or no result, recording
whether an exception was raised and whether the Python variable `result`
ended up `None` (as opposed to a falsy string). -/
inductive LLMPhase where
  | accepted (v : List Char)
  | noResult (exn : Bool) (isNone : Bool)
deriving DecidableEq

/-- The LLM attempt of `translate` (lines 4660–4691): skipped entirely in
MT-fallback state; otherwise call the LLM, reject output failing
`_is_llm_output_sane`, repair via `_fix_mixed_llm_output`, re-check sanity,
and accept.  The second component counts provider invocations. -/
def llmPhase (env : TransEnv) (s : TransState) (text : List Char) :
    LLMPhase × Nat :=
  if s.usingMtFallback then (.noResult false true, 0)
  else
    match env.llm text with
    | .error _ => (.noResult true true, 1)
    | .ok none => (.noResult false true, 1)
    | .ok (some r) =>
      if r = [] then (.noResult false false, 1)
      else if !isLLMOutputSane r text then (.noResult false true, 1)
      else
        let f := env.fixMixed r
        if !isLLMOutputSane f text then (.noResult false true, 1)
        else (.accepted f, 1)

/-- The all-providers-failed tail of `translate` (lines 4746–4762): warn
once per session, cache and return the placeholder
`"Translation Failed: " + text[:15]`. -/
def failResult (s : TransState) (text : List Char) (n : Nat) :
    List Char × TransState × Nat :=
  let fb := "Translation Failed: ".toList ++ text.take 15
  (fb, { s with cache := cacheInsert s.cache text fb,
                translationFailWarned := true }, n)

/-- `app.translate(text)`: cache hit short-circuits; in large-model mode the
LLM attempt is followed (on exception or `None` result) by the 6-provider MT
fallback chain; in small-model mode the 8-provider MT chain runs; if
everything fails the placeholder is cached and returned.  Returns
`(result, new_state, number_of_provider_invocations)`. -/
def translateStep (env : TransEnv) (s : TransState) (text : List Char) :
    List Char × TransState × Nat :=
  match cacheLookup s.cache text with
  | some v => (v, s, 0)
  | none =>
    if s.useLargeModel then
      match llmPhase env s text with
      | (.accepted v, n) =>
        (v, { s with cache := cacheInsert s.cache text v }, n)
      | (.noResult exn isNone, n) =>
        let s₁ := if exn then { s with usingMtFallback := true,
                                       mtFallbackMessageShown := false }
                  else s
        if isNone then
          match runChain (chain6 env) text with
          | (some v, m) =>
            (v, { s₁ with cache := cacheInsert s₁.cache text v,
                          mtFallbackMessageShown := true }, n + m)
          | (none, m) => failResult s₁ text (n + m)
        else failResult s₁ text n
    else
      match runChain (chain8 env) text with
      | (some v, m) => (v, { s with cache := cacheInsert s.cache text v }, m)
      | (none, m) => failResult s text m

/-! ## Ring buffers (`ocr_thread` / `ui_update` in `app.py`) -/

/-- An entry of the recent-sources / recent-translations rings:
`(text, timestamp)`. -/
abbrev RingEntry := List Char × ℚ

/-- One operation on a dedup ring: an append (followed by the code's cap
trim) or a time-window prune (`[(t, ts) for t, ts in ring if now - ts < w]`,
a filter). -/
inductive RingOp where
  | push (x : RingEntry)
  | prune (p : RingEntry → Bool)

/-- `self._recent_sources.append((text, now)); if len(...) > 15:
self._recent_sources = self._recent_sources[-15:]` (ocr_thread, all call
sites). -/
def pushRecentSource (l : List RingEntry) (x : RingEntry) : List RingEntry :=
  let l₁ := l ++ [x]
  if 15 < l₁.length then l₁.drop (l₁.length - 15) else l₁

/-- `self._recent_translations.append((popped, now)); if len(...) > 20:
self._recent_translations = self._recent_translations[-20:]` (ui_update). -/
def pushRecentTrans (l : List RingEntry) (x : RingEntry) : List RingEntry :=
  let l₁ := l ++ [x]
  if 20 < l₁.length then l₁.drop (l₁.length - 20) else l₁

/-- Apply one operation to the recent-sources ring. -/
def applySrcOp (l : List RingEntry) : RingOp → List RingEntry
  | .push x => pushRecentSource l x
  | .prune p => l.filter p

/-- Apply one operation to the recent-translations ring. -/
def applyTransOp (l : List RingEntry) : RingOp → List RingEntry
  | .push x => pushRecentTrans l x
  | .prune p => l.filter p

/-! ## The C1 trace (spec scenario 1, shifted to base time 1) -/

/-- Fresh MT reconciler with `stability_threshold = 0.2` created at time 1. -/
def c1s0 : MTState := mtInit (1 / 5) 1

/-- State after frame `"你"` at `t₀ + 0` (buffer created). -/
def c1s1 : MTState :=
  { stabilityThreshold := 1 / 5, stableBuffer := [],
    unstableBuffer := "你".toList, lastUnstable := "你".toList,
    lastChangeTime := 1, stabilityStartTime := none,
    unstableBufferStartTime := some 1, translatedStable := [] }

/-- State after frame `"你好"` at `t₀ + 0.05` (progressive reveal). -/
def c1s2 : MTState :=
  { c1s1 with unstableBuffer := "你好".toList,
              lastUnstable := "你好".toList, lastChangeTime := 21 / 20 }

/-- State after frame `"你好世界"` at `t₀ + 0.10`. -/
def c1s3 : MTState :=
  { c1s1 with unstableBuffer := "你好世界".toList,
              lastUnstable := "你好世界".toList, lastChangeTime := 11 / 10 }

/-- State after the repeated frame `"你好世界"` at `t₀ + 0.30`: the
stability clock starts only now. -/
def c1s4 : MTState :=
  { c1s3 with stabilityStartTime := some (13 / 10) }

/-- State after the commit fired by a fifth frame at `t₀ + 0.40`. -/
def c1s5 : MTState :=
  { c1s3 with stableBuffer := ["你好世界".toList],
              unstableBuffer := [], stabilityStartTime := none,
              unstableBufferStartTime := none }

/-! ## Concrete environments and states used by the claims -/

/-- Environment in which the LLM raises and every MT provider fails. -/
def envAllFail : TransEnv :=
  { llm := fun _ => .error (), fixMixed := id,
    deepl := fun _ => none, google := fun _ => none, baidu := fun _ => none,
    youdao := fun _ => none, yandex := fun _ => none, libre := fun _ => none,
    caiyun := fun _ => none, niutrans := fun _ => none }

/-- Fresh dispatcher state in large-model mode. -/
def stFresh : TransState :=
  { cache := [], useLargeModel := true, usingMtFallback := false,
    mtFallbackMessageShown := false, translationFailWarned := false }

/-! ## Helper lemmas -/

/-- Looking up a just-inserted cache key yields the inserted value. -/
lemma cacheLookup_insert_self (c : List (List Char × List Char))
    (s v : List Char) : cacheLookup (cacheInsert c s v) s = some v := by
  simp [cacheLookup, cacheInsert]

/-- A cache hit returns the cached value, the unchanged state, and zero
provider invocations. -/
lemma translateStep_hit (env : TransEnv) (s : TransState) (text v : List Char)
    (h : cacheLookup s.cache text = some v) :
    translateStep env s text = (v, s, 0) := by
  unfold translateStep
  rw [h]

/-- Every path of `translate` stores its own return value in the cache
before returning. -/
lemma translateStep_caches (env : TransEnv) (s : TransState) (text : List Char) :
    cacheLookup (translateStep env s text).2.1.cache text =
      some (translateStep env s text).1 := by
  unfold translateStep
  split
  · rename_i v hv
    exact hv
  · repeat' split
    all_goals simp [failResult, cacheLookup_insert_self]

/-- A provider chain in which every provider fails scans the whole chain
and produces nothing. -/
lemma runChain_fail (chain : List (List Char → Option (List Char)))
    (text : List Char) (h : ∀ p ∈ chain, provOk (p text) = false) :
    runChain chain text = (none, chain.length) := by
  induction chain with
  | nil => rfl
  | cons p ps ih =>
    have hp := h p (by simp)
    have hps : ∀ q ∈ ps, provOk (q text) = false :=
      fun q hq => h q (by simp [hq])
    simp [runChain, hp, ih hps]

/-- A fold of `max` over a list of bounded naturals is bounded. -/
lemma foldr_max_le (xs : List Nat) (n : Nat) (h : ∀ x ∈ xs, x ≤ n) :
    xs.foldr max 0 ≤ n := by
  induction xs with
  | nil => simp
  | cons a t ih =>
    simp only [List.foldr_cons]
    exact max_le (h a (by simp)) (ih fun x hx => h x (by simp [hx]))

/-- The maximal multiplicity of an element is at most the list length. -/
lemma maxMult_le_length (l : List (List Char)) : maxMult l ≤ l.length := by
  unfold maxMult
  apply foldr_max_le
  intro x hx
  rcases List.mem_map.mp hx with ⟨t, _, rfl⟩
  simpa using List.count_le_length t l

/-- One recent-sources operation keeps the ring at ≤ 15 entries. -/
lemma applySrcOp_length (l : List RingEntry) (op : RingOp)
    (h : l.length ≤ 15) : (applySrcOp l op).length ≤ 15 := by
  cases op with
  | push x =>
    simp only [applySrcOp, pushRecentSource]
    split
    · simp only [List.length_drop]
      omega
    · rename_i hlen
      omega
  | prune p => exact le_trans (List.length_filter_le _ _) h

/-- One recent-translations operation keeps the ring at ≤ 20 entries. -/
lemma applyTransOp_length (l : List RingEntry) (op : RingOp)
    (h : l.length ≤ 20) : (applyTransOp l op).length ≤ 20 := by
  cases op with
  | push x =>
    simp only [applyTransOp, pushRecentTrans]
    split
    · simp only [List.length_drop]
      omega
    · rename_i hlen
      omega
  | prune p => exact le_trans (List.length_filter_le _ _) h

/-- Any sequence of recent-sources operations keeps the ring at ≤ 15. -/
lemma foldl_srcOps (ops : List RingOp) (l : List RingEntry)
    (h : l.length ≤ 15) : (ops.foldl applySrcOp l).length ≤ 15 := by
  induction ops generalizing l with
  | nil => simpa using h
  | cons op t ih => exact ih _ (applySrcOp_length l op h)

/-- Any sequence of recent-translations operations keeps the ring at ≤ 20. -/
lemma foldl_transOps (ops : List RingOp) (l : List RingEntry)
    (h : l.length ≤ 20) : (ops.foldl applyTransOp l).length ≤ 20 := by
  induction ops generalizing l with
  | nil => simpa using h
  | cons op t ih => exact ih _ (applyTransOp_length l op h)

/-! ## Claims -/

set_option maxRecDepth 4000 in
unseal Rat.add Rat.sub Rat.mul Rat.inv in
/-- C1 (counterexample): in spec scenario 1 with `stability_threshold = 0.2`
and frames `"你"`, `"你好"`, `"你好世界"`, `"你好世界"` at `t₀ + 0`,
`t₀ + 0.05`, `t₀ + 0.10`, `t₀ + 0.30` (base time `t₀ = 1`), every one of the
four ingest calls — in particular the one at `t₀ + 0.30` — returns
`should_commit = False`: the stability clock only starts at the first
repeated frame, so the scenario produces no commit at all. -/
theorem C1_trace_no_commit :
    mtIngest c1s0 1 "你".toList = ((false, none, false), c1s1) ∧
    mtIngest c1s1 (21 / 20) "你好".toList = ((false, none, false), c1s2) ∧
    mtIngest c1s2 (11 / 10) "你好世界".toList = ((false, none, false), c1s3) ∧
    mtIngest c1s3 (13 / 10) "你好世界".toList = ((false, none, false), c1s4) :=
  ⟨by decide, by decide, by decide, by decide⟩

set_option maxRecDepth 4000 in
unseal Rat.add Rat.sub Rat.mul Rat.inv in
/-- C1 (amended): the four frames of scenario 1 produce no commit (the
unstable buffer does hold `"你好世界"`), and the first identical frame
arriving at `t₀ + 0.40` (= `2 × stability_threshold` after the buffer was
created) produces the single commit of `"你好世界"`, via the timeout
path. -/
theorem C1_trace_amended :
    mtIngest c1s0 1 "你".toList = ((false, none, false), c1s1) ∧
    mtIngest c1s1 (21 / 20) "你好".toList = ((false, none, false), c1s2) ∧
    mtIngest c1s2 (11 / 10) "你好世界".toList = ((false, none, false), c1s3) ∧
    mtIngest c1s3 (13 / 10) "你好世界".toList = ((false, none, false), c1s4) ∧
    c1s4.unstableBuffer = "你好世界".toList ∧
    mtIngest c1s4 (7 / 5) "你好世界".toList =
      ((true, some "你好世界".toList, true), c1s5) :=
  ⟨by decide, by decide, by decide, by decide, by decide, by decide⟩

set_option maxRecDepth 4000 in
unseal Rat.add Rat.sub Rat.mul Rat.inv in
/-- C2 (counterexample): merging frame `"quick brown fox"` into unstable
buffer `"the quick brown"` does not yield `"the quick brown fox"`: the
similarity-rewrite guard (length ratio 1.0, matcher ratio 22/30 ≥ 0.5)
fires before the boundary-overlap scan. -/
theorem C2_merge_cx :
    mergeWithOverlap "the quick brown".toList "quick brown fox".toList ≠
      "the quick brown fox".toList := by decide

set_option maxRecDepth 4000 in
unseal Rat.add Rat.sub Rat.mul Rat.inv in
/-- C2 (amended): merging `"quick brown fox"` into `"the quick brown"`
replaces the buffer, yielding `"quick brown fox"`. -/
theorem C2_merge_amended :
    mergeWithOverlap "the quick brown".toList "quick brown fox".toList =
      "quick brown fox".toList := by decide

/-- C3: the MT merge satisfies `Merge(x, x) = x`,
`Merge(x, x·y) = x·y` for non-empty `y`, and `Merge("", x) = x`. -/
theorem C3_merge_laws (x y : List Char) (_hy : y ≠ []) :
    mergeWithOverlap x x = x ∧ mergeWithOverlap x (x ++ y) = x ++ y ∧
      mergeWithOverlap [] x = x := by
  refine ⟨?_, ?_, by simp [mergeWithOverlap]⟩
  · by_cases h0 : x = []
    · subst h0; simp [mergeWithOverlap]
    · by_cases hc : (lenRatioOk x x && simRatioGe x x) = true
      · simp [mergeWithOverlap, h0, hc]
      · simp [mergeWithOverlap, h0, hc, List.isPrefixOf_iff_prefix]
  · by_cases h0 : x = []
    · subst h0; simp [mergeWithOverlap]
    · by_cases hc : (lenRatioOk x (x ++ y) && simRatioGe x (x ++ y)) = true
      · simp [mergeWithOverlap, h0, hc]
      · simp [mergeWithOverlap, h0, hc, List.isPrefixOf_iff_prefix]

/-- C3 (witness): the three laws at `x = "ab"`, `y = "c"`. -/
theorem C3_merge_laws_wit :
    mergeWithOverlap "ab".toList "ab".toList = "ab".toList ∧
      mergeWithOverlap "ab".toList ("ab".toList ++ "c".toList) =
        "ab".toList ++ "c".toList ∧
      mergeWithOverlap [] "ab".toList = "ab".toList :=
  C3_merge_laws "ab".toList "c".toList (by decide)

set_option maxRecDepth 4000 in
unseal Rat.add Rat.sub Rat.mul Rat.inv in
/-- C4 (counterexample): the LLM-variant merge is not the MT-variant merge:
on buffer `"abcdefghij"` and frame `"xyz"` (no overlap, short frame) the MT
merge keeps the buffer while the LLM merge appends with a space. -/
theorem C4_llm_mt_cx :
    llmMerge "abcdefghij".toList "xyz".toList ≠
      mergeWithOverlap "abcdefghij".toList "xyz".toList := by
  decide

/-- C4 (amended): the two merges agree — both returning the new frame —
whenever the buffer is empty, the similarity-rewrite guard fires, the new
frame extends the buffer, or the buffer occurs inside the new frame; they
differ only past those shared branches (overlap depth 20 vs 25, the MT
rewrite/middle-overlap/keep-old cases vs the LLM last resort
`old + " " + new`). -/
theorem C4_llm_mt_agree (old new : List Char)
    (h : old = [] ∨ (lenRatioOk old new && simRatioGe old new) = true ∨
         old.isPrefixOf new = true ∨ containsSub old new = true) :
    llmMerge old new = mergeWithOverlap old new := by
  have hl : llmMerge old new = new := by
    rcases h with h | h | h | h
    · simp [llmMerge, h]
    · by_cases h0 : old = []
      · simp [llmMerge, h0]
      · simp [llmMerge, h0, h]
    · by_cases h0 : old = []
      · simp [llmMerge, h0]
      · by_cases hc : (lenRatioOk old new && simRatioGe old new) = true
        · simp [llmMerge, h0, hc]
        · simp [llmMerge, h0, hc, h]
    · by_cases h0 : old = []
      · simp [llmMerge, h0]
      · by_cases hc : (lenRatioOk old new && simRatioGe old new) = true
        · simp [llmMerge, h0, hc]
        · by_cases hp : old.isPrefixOf new = true
          · simp [llmMerge, h0, hc, hp]
          · simp [llmMerge, h0, hc, hp, h]
  have hm : mergeWithOverlap old new = new := by
    rcases h with h | h | h | h
    · simp [mergeWithOverlap, h]
    · by_cases h0 : old = []
      · simp [mergeWithOverlap, h0]
      · simp [mergeWithOverlap, h0, h]
    · by_cases h0 : old = []
      · simp [mergeWithOverlap, h0]
      · by_cases hc : (lenRatioOk old new && simRatioGe old new) = true
        · simp [mergeWithOverlap, h0, hc]
        · simp [mergeWithOverlap, h0, hc, h]
    · by_cases h0 : old = []
      · simp [mergeWithOverlap, h0]
      · by_cases hc : (lenRatioOk old new && simRatioGe old new) = true
        · simp [mergeWithOverlap, h0, hc]
        · by_cases hp : old.isPrefixOf new = true
          · simp [mergeWithOverlap, h0, hc, hp]
          · simp [mergeWithOverlap, h0, hc, hp, h]
  rw [hl, hm]

/-- C4 (witness): the two merges agree on buffer `"ab"`, frame `"abc"`. -/
theorem C4_llm_mt_agree_wit :
    llmMerge "ab".toList "abc".toList =
      mergeWithOverlap "ab".toList "abc".toList :=
  C4_llm_mt_agree "ab".toList "abc".toList
    (Or.inr (Or.inr (Or.inl (by decide))))

/-- C5: a repeated `translate(s)` call is a pure cache hit: it returns the
same result as the first call, leaves the dispatcher state unchanged, and
invokes zero providers. -/
theorem C5_translate_cached (env : TransEnv) (s : TransState)
    (text : List Char) :
    translateStep env (translateStep env s text).2.1 text =
      ((translateStep env s text).1, (translateStep env s text).2.1, 0) :=
  translateStep_hit env _ text _ (translateStep_caches env s text)

/-- C6: when the LLM raises or returns nothing and every MT provider fails,
`translate` still returns (it cannot raise in this model — every provider
exception is caught), producing the placeholder
`"Translation Failed: " + text[:15]` and caching it under `text`. -/
theorem C6_all_fail (env : TransEnv) (s : TransState) (text : List Char)
    (hc : cacheLookup s.cache text = none)
    (hllm : s.useLargeModel = true →
      env.llm text = .error () ∨ env.llm text = .ok none)
    (hmt : ∀ p ∈ chain8 env, provOk (p text) = false) :
    (translateStep env s text).1 =
      "Translation Failed: ".toList ++ text.take 15 ∧
    cacheLookup (translateStep env s text).2.1.cache text =
      some ("Translation Failed: ".toList ++ text.take 15) := by
  have h6 : ∀ p ∈ chain6 env, provOk (p text) = false := by
    intro p hp
    apply hmt
    simp only [chain6, List.mem_cons, List.not_mem_nil, or_false] at hp
    rcases hp with h | h | h | h | h | h <;> simp [chain8, h]
  have hrc6 : runChain (chain6 env) text = (none, 6) := by
    rw [runChain_fail _ text h6]; rfl
  have hrc8 : runChain (chain8 env) text = (none, 8) := by
    rw [runChain_fail _ text hmt]; rfl
  unfold translateStep
  rw [hc]
  by_cases hL : s.useLargeModel
  · rw [if_pos hL]
    by_cases hF : s.usingMtFallback
    · simp [llmPhase, hF, hrc6, failResult, cacheLookup_insert_self]
    · rcases hllm hL with he | hn
      · simp [llmPhase, hF, he, hrc6, failResult, cacheLookup_insert_self]
      · simp [llmPhase, hF, hn, hrc6, failResult, cacheLookup_insert_self]
  · rw [if_neg hL]
    simp [hrc8, failResult, cacheLookup_insert_self]

/-- C6 (witness): total provider failure on a 20-character input yields the
placeholder holding exactly the first 15 characters, and caches it. -/
theorem C6_all_fail_wit :
    (translateStep envAllFail stFresh "abcdefghijklmnopqrst".toList).1 =
      "Translation Failed: ".toList ++ "abcdefghijklmnopqrst".toList.take 15 ∧
    cacheLookup
        (translateStep envAllFail stFresh "abcdefghijklmnopqrst".toList).2.1.cache
        "abcdefghijklmnopqrst".toList =
      some ("Translation Failed: ".toList ++
        "abcdefghijklmnopqrst".toList.take 15) :=
  C6_all_fail envAllFail stFresh "abcdefghijklmnopqrst".toList rfl
    (fun _ => Or.inl rfl)
    (by
      intro p hp
      simp only [chain8, envAllFail, List.mem_cons, List.not_mem_nil,
        or_false] at hp
      rcases hp with h | h | h | h | h | h | h | h <;> simp [h, provOk])

/-- C7 (counterexample): a candidate of only 9 whitespace tokens in which
`"a"` repeats 8 times (≥ 8 repetitions and ≥ 30 % of the tokens, the
claim's second trigger) is accepted as sane, because the token-repetition
rules only run when there are at least 10 tokens. -/
theorem C7_sane_cx :
    isLLMOutputSane "a a a a a a a a b".toList "xy".toList = true ∧
      8 ≤ maxMult (splitTokens (pyStrip "a a a a a a a a b".toList)) ∧
      3 * (splitTokens (pyStrip "a a a a a a a a b".toList)).length ≤
        10 * maxMult (splitTokens (pyStrip "a a a a a a a a b".toList)) := by
  decide

/-- C7 (amended): the sanity check rejects a candidate whose stripped text
has at least 10 whitespace tokens of which one repeats ≥ 15 times, or ≥ 8
times making up ≥ 30 % of the tokens; and rejects a candidate in which one
of the regex-extracted 2–8-character CJK chunks occurs ≥ 15 times among the
extracted chunks. -/
theorem C7_sane_reject (r src : List Char)
    (h : (10 ≤ (splitTokens (pyStrip r)).length ∧
           (15 ≤ maxMult (splitTokens (pyStrip r)) ∨
             (8 ≤ maxMult (splitTokens (pyStrip r)) ∧
               3 * (splitTokens (pyStrip r)).length ≤
                 10 * maxMult (splitTokens (pyStrip r))))) ∨
         15 ≤ maxMult (cjkChunks (pyStrip r))) :
    isLLMOutputSane r src = false := by
  simp only [isLLMOutputSane]
  split
  · rfl
  · split
    · rfl
    · split
      · rfl
      · split
        · rfl
        · rename_i hs hlen htok hcjk
          exfalso
          rcases h with h | h
          · exact htok h
          · exact hcjk ⟨le_trans (by omega) (maxMult_le_length _), h⟩

/-- C7 (witness): 16 tokens of which `"a"` repeats 15 times is rejected. -/
theorem C7_sane_reject_wit :
    isLLMOutputSane "a a a a a a a a a a a a a a a b".toList "xy".toList =
      false :=
  C7_sane_reject "a a a a a a a a a a a a a a a b".toList "xy".toList
    (Or.inl (by decide))

/-- C8: the audio reconciler never commits a transcript whose word count is
below `min_words`, and immediately commits (final) a transcript with enough
words that ends in one of the sentence terminators `. ! ? 。`. -/
theorem C8_audio_policy (s : AudioState) (now : ℚ) (t : List Char) :
    (countWords (pyStrip t) < s.minWords →
      (audioIngest s now t).1.1 = false) ∧
    (∀ c : Char, s.minWords ≤ countWords (pyStrip t) →
      (pyStrip t).getLast? = some c →
      c ∈ (['.', '!', '?', '。'] : List Char) →
      (audioIngest s now t).1 = (true, some (pyStrip t), true)) := by
  constructor
  · intro h
    by_cases hs : pyStrip t = []
    · simp [audioIngest, hs]
    · simp [audioIngest, hs, h]
  · intro c hwc hlast hC
    have hs : pyStrip t ≠ [] := by
      intro e
      rw [e] at hlast
      simp at hlast
    have hcomp : isSentenceComplete (pyStrip t) = true := by
      unfold isSentenceComplete
      rw [hlast]
      fin_cases hC <;> decide
    have hnlt : ¬ countWords (pyStrip t) < s.minWords := not_lt.mpr hwc
    simp [audioIngest, hs, hnlt, hcomp]

/-- C8 (witness): with `min_words = 7`, a 5-word transcript is not
committed, and an 8-word transcript ending in `"."` is committed as final. -/
theorem C8_audio_policy_wit :
    (audioIngest (audioInit 2 4 7) 0
        "Hello how are you doing".toList).1.1 = false ∧
    (audioIngest (audioInit 2 4 7) 0
        "Hello how are you doing today my friend.".toList).1 =
      (true, some (pyStrip "Hello how are you doing today my friend.".toList),
        true) :=
  ⟨(C8_audio_policy (audioInit 2 4 7) 0 _).1 (by decide),
   (C8_audio_policy (audioInit 2 4 7) 0 _).2 '.' (by decide) (by decide)
     (by decide)⟩

/-- C9 (counterexample): sixteen appends drive the recent-translations ring
to 16 entries — its cap in `ui_update` is 20, not 15. -/
theorem C9_ring_cx :
    15 < ((List.replicate 16 (RingOp.push ("x".toList, 0))).foldl
        applyTransOp []).length := by decide

/-- C9 (amended): starting empty, any sequence of append / time-window
prune operations keeps the recent-sources ring at ≤ 15 entries and the
recent-translations ring at ≤ 20 entries. -/
theorem C9_ring_bounds (opsS opsT : List RingOp) :
    (opsS.foldl applySrcOp []).length ≤ 15 ∧
      (opsT.foldl applyTransOp []).length ≤ 20 :=
  ⟨foldl_srcOps opsS [] (by simp), foldl_transOps opsT [] (by simp)⟩

/-- C10: an empty or whitespace-only frame makes `StreamingReconciler.ingest`
return `(False, None, False)` and leaves the whole state (buffers, last
frame, and all timers) unchanged. -/
theorem C10_empty_frame (s : MTState) (now : ℚ) (t : List Char)
    (h : pyStrip t = []) :
    mtIngest s now t = ((false, none, false), s) := by
  unfold mtIngest
  rw [if_pos h]

/-- C10 (witness): a two-space frame at an arbitrary state and time. -/
theorem C10_empty_frame_wit :
    mtIngest (mtInit (2 / 5) 3) 5 "  ".toList =
      ((false, none, false), mtInit (2 / 5) 3) :=
  C10_empty_frame (mtInit (2 / 5) 3) 5 "  ".toList (by decide)

end BiliOCR

